import Mathlib

/-!
Verification of the frequency-planning and target-resolution subsystem of the
qubex repository (`src/qubex/backend/experiment_system.py` and
`src/qubex/backend/target.py`), as a shallow embedding in Lean 4.

Python machine floats are modelled as exact rationals (`ℚ`), hardware
frequencies in hertz as integers (`ℤ`), Python exceptions as `Except String`,
and Python `dict`s as association lists with insertion-order semantics.
-/

/-- Number of iterations of Python `range(start, stop, step)` for positive
`step`: the integers `start, start+step, ...` strictly below `stop`. -/
def rangeLen (start stop step : ℤ) : ℕ :=
  if 0 < step ∧ start < stop then (stop - start - 1).toNat / step.toNat + 1 else 0

/-- Python `range(start, stop, step)` for positive `step`, as a list. -/
def pyRange (start stop step : ℤ) : List ℤ :=
  (List.range (rangeLen start stop step)).map (fun k : ℕ => start + (k : ℤ) * step)

lemma lt_rangeLen_iff {start stop step : ℤ} (hs : 0 < step) (k : ℕ) :
    k < rangeLen start stop step ↔ start + (k : ℤ) * step < stop := by
  unfold rangeLen
  by_cases h : start < stop
  · rw [if_pos ⟨hs, h⟩]
    have hst : (step.toNat : ℤ) = step := Int.toNat_of_nonneg hs.le
    have hm : ((stop - start - 1).toNat : ℤ) = stop - start - 1 :=
      Int.toNat_of_nonneg (by omega)
    rw [Nat.lt_succ_iff, Nat.le_div_iff_mul_le (by omega : 0 < step.toNat),
      ← Nat.cast_le (α := ℤ)]
    push_cast [hst, hm]
    omega
  · rw [if_neg (by tauto)]
    have hk : (0 : ℤ) ≤ (k : ℤ) * step := by positivity
    constructor
    · intro hc; omega
    · intro hc; omega

lemma mem_pyRange_iff {start stop step : ℤ} (hs : 0 < step) (x : ℤ) :
    x ∈ pyRange start stop step ↔
      ∃ k : ℕ, x = start + (k : ℤ) * step ∧ start + (k : ℤ) * step < stop := by
  unfold pyRange
  constructor
  · intro hx
    obtain ⟨k, hk, hkx⟩ := List.mem_map.mp hx
    exact ⟨k, hkx.symm, (lt_rangeLen_iff hs k).mp (List.mem_range.mp hk)⟩
  · rintro ⟨k, rfl, hk⟩
    exact List.mem_map.mpr ⟨k, List.mem_range.mpr ((lt_rangeLen_iff hs k).mpr hk), rfl⟩

/-- Any member of a `pyRange` has the form `start + k * step` and is below
`stop` (the step is recovered from nonemptiness of the range). -/
lemma pyRange_shape {start stop step : ℤ} {x : ℤ} (hx : x ∈ pyRange start stop step) :
    ∃ k : ℕ, x = start + (k : ℤ) * step ∧ x < stop := by
  by_cases hs : 0 < step
  · obtain ⟨k, rfl, hk⟩ := (mem_pyRange_iff hs x).mp hx
    exact ⟨k, rfl, hk⟩
  · exfalso
    have : rangeLen start stop step = 0 := by
      unfold rangeLen; rw [if_neg (by tauto)]
    simp [pyRange, this] at hx

/-- One step of the strict-improvement minimum search used by the planners:
the accumulator holds the best candidate so far with its score (`none` plays
the role of Python's initial `min_diff = float("inf")`), and a new candidate
replaces it only when its score is strictly smaller. -/
def stepMin {α : Type} (d : α → ℚ) (acc : Option (α × ℚ)) (x : α) : Option (α × ℚ) :=
  match acc with
  | none => some (x, d x)
  | some bm => if d x < bm.2 then some (x, d x) else some bm

/-- The first minimiser of `d` over `xs` in list order, computed exactly as
the Python loops do (strict improvement, first-seen wins ties). -/
def firstArgmin {α : Type} (d : α → ℚ) (xs : List α) : Option α :=
  (xs.foldl (stepMin d) none).map (fun bm => bm.1)

lemma foldl_stepMin {α : Type} (d : α → ℚ) (xs : List α) : ∀ b : α,
    ∃ r, xs.foldl (stepMin d) (some (b, d b)) = some (r, d r) ∧ d r ≤ d b ∧
      (∀ x ∈ xs, d r ≤ d x) ∧
      (r = b ∨ (d r < d b ∧ ∃ l1 l2, xs = l1 ++ r :: l2 ∧ ∀ y ∈ l1, d r < d y)) := by
  induction xs with
  | nil =>
    intro b
    exact ⟨b, rfl, le_refl _, by simp, Or.inl rfl⟩
  | cons x xs ih =>
    intro b
    rw [List.foldl_cons]
    by_cases hx : d x < d b
    · rw [show stepMin d (some (b, d b)) x = some (x, d x) by simp [stepMin, hx]]
      obtain ⟨r, hr, hrb, hall, hpos⟩ := ih x
      refine ⟨r, hr, (hrb.trans_lt hx).le, ?_, ?_⟩
      · intro y hy
        rcases List.mem_cons.mp hy with rfl | hy'
        · exact hrb
        · exact hall y hy'
      · rcases hpos with rfl | ⟨hlt, l1, l2, hsplit, hl1⟩
        · exact Or.inr ⟨hx, [], xs, rfl, by simp⟩
        · refine Or.inr ⟨hlt.trans hx, x :: l1, l2, by rw [hsplit]; rfl, ?_⟩
          intro y hy
          rcases List.mem_cons.mp hy with rfl | hy'
          · exact hlt
          · exact hl1 y hy'
    · rw [show stepMin d (some (b, d b)) x = some (b, d b) by simp [stepMin, hx]]
      have hbx : d b ≤ d x := not_lt.mp hx
      obtain ⟨r, hr, hrb, hall, hpos⟩ := ih b
      refine ⟨r, hr, hrb, ?_, ?_⟩
      · intro y hy
        rcases List.mem_cons.mp hy with rfl | hy'
        · exact hrb.trans hbx
        · exact hall y hy'
      · rcases hpos with rfl | ⟨hlt, l1, l2, hsplit, hl1⟩
        · exact Or.inl rfl
        · refine Or.inr ⟨hlt, x :: l1, l2, by rw [hsplit]; rfl, ?_⟩
          intro y hy
          rcases List.mem_cons.mp hy with rfl | hy'
          · exact hlt.trans_le hbx
          · exact hl1 y hy'

/-- `firstArgmin` on a nonempty list returns an element that minimises `d`
and is, among all minimisers, the first one in list order (every element
strictly before it scores strictly worse). -/
lemma firstArgmin_spec {α : Type} (d : α → ℚ) (xs : List α) (hne : xs ≠ []) :
    ∃ r, firstArgmin d xs = some r ∧ (∀ x ∈ xs, d r ≤ d x) ∧
      ∃ l1 l2, xs = l1 ++ r :: l2 ∧ ∀ y ∈ l1, d r < d y := by
  match xs with
  | [] => exact absurd rfl hne
  | x :: xs =>
    obtain ⟨r, hr, hrb, hall, hpos⟩ := foldl_stepMin d xs x
    have hfold : (x :: xs).foldl (stepMin d) none = some (r, d r) := by
      rw [List.foldl_cons]
      exact hr
    refine ⟨r, by simp [firstArgmin, hfold], ?_, ?_⟩
    · intro y hy
      rcases List.mem_cons.mp hy with rfl | hy'
      · exact hrb
      · exact hall y hy'
    · rcases hpos with rfl | ⟨hlt, l1, l2, hsplit, hl1⟩
      · exact ⟨[], xs, rfl, by simp⟩
      · refine ⟨x :: l1, l2, by rw [hsplit]; rfl, ?_⟩
        intro y hy
        rcases List.mem_cons.mp hy with rfl | hy'
        · exact hlt
        · exact hl1 y hy'

/-- Python `max` over a nonempty list of rationals (`0` on the empty list,
where Python would raise; all call sites guard nonemptiness). -/
def maxQ : List ℚ → ℚ
  | [] => 0
  | x :: xs => xs.foldl (fun a b => if a < b then b else a) x

/-- Python `min` over a nonempty list of rationals (`0` on the empty list,
where Python would raise; all call sites guard nonemptiness). -/
def minQ : List ℚ → ℚ
  | [] => 0
  | x :: xs => xs.foldl (fun a b => if b < a then b else a) x

/-- The readout search target of `find_readout_lo_nco`: resonator frequencies
(GHz) converted to hertz, then the midpoint of their maximum and minimum. -/
def readoutTarget (freqs : List ℚ) : ℚ :=
  let hz := freqs.map (fun f => f * 1000000000)
  (maxQ hz + minQ hz) / 2

/-- The `(lo, fnco)` pairs enumerated by the nested loops of
`find_readout_lo_nco`: `lo` ascending outer, `fnco` ascending inner. -/
def readoutPairs (lo_min lo_max lo_step fnco_min fnco_max nco_step : ℤ) : List (ℤ × ℤ) :=
  (pyRange lo_min (lo_max + 1) lo_step).bind fun lo =>
    (pyRange fnco_min (fnco_max + 1) nco_step).map fun fnco => (lo, fnco)

/-- Python's builtin `abs` on a (rational-modelled) float, written as the
conditional it computes so that concrete runs reduce. -/
def pyAbs (x : ℚ) : ℚ := if x < 0 then -x else x

lemma pyAbs_eq_abs (x : ℚ) : pyAbs x = |x| := by
  unfold pyAbs
  by_cases h : x < 0
  · rw [if_pos h, abs_of_neg h]
  · rw [if_neg h, abs_of_nonneg (not_lt.mp h)]

/-- The quantity minimised by `find_readout_lo_nco`:
`abs(lo + cnco + fnco - target_frequency)`. -/
def readoutDiff (cnco : ℤ) (t : ℚ) (p : ℤ × ℤ) : ℚ :=
  pyAbs ((p.1 : ℚ) + (cnco : ℚ) + (p.2 : ℚ) - t)

/-- `ExperimentSystem.find_readout_lo_nco`: exhaustive first-wins grid search
for the readout `(lo, cnco, fnco)` of a mux, given the mux's resonator
frequencies in GHz. -/
def find_readout_lo_nco (freqs : List ℚ) (lo_min lo_max lo_step nco_step cnco fnco_min fnco_max : ℤ) :
    Except String (ℤ × ℤ × ℤ) :=
  if freqs.isEmpty then .error "max of empty sequence"
  else
    let t := readoutTarget freqs
    match firstArgmin (readoutDiff cnco t) (readoutPairs lo_min lo_max lo_step fnco_min fnco_max nco_step) with
    | none => .error "No valid (lo, fnco) pair found."
    | some p => .ok (p.1, cnco, p.2)

lemma mem_readoutPairs_iff {lo_min lo_max lo_step fnco_min fnco_max nco_step : ℤ}
    (lo fnco : ℤ) :
    (lo, fnco) ∈ readoutPairs lo_min lo_max lo_step fnco_min fnco_max nco_step ↔
      lo ∈ pyRange lo_min (lo_max + 1) lo_step ∧
      fnco ∈ pyRange fnco_min (fnco_max + 1) nco_step := by
  simp only [readoutPairs, List.mem_bind, List.mem_map, Prod.mk.injEq]
  constructor
  · rintro ⟨a, ha, b, hb, rfl, rfl⟩
    exact ⟨ha, hb⟩
  · rintro ⟨ha, hb⟩
    exact ⟨lo, ha, fnco, hb, rfl, rfl⟩

/-- When the argmin search succeeds, `find_readout_lo_nco` wraps its result
with the given `cnco`. -/
lemma find_readout_eq_ok (freqs : List ℚ)
    (lo_min lo_max lo_step nco_step cnco fnco_min fnco_max : ℤ)
    (hf : freqs ≠ []) (r : ℤ × ℤ)
    (hr : firstArgmin (readoutDiff cnco (readoutTarget freqs))
      (readoutPairs lo_min lo_max lo_step fnco_min fnco_max nco_step) = some r) :
    find_readout_lo_nco freqs lo_min lo_max lo_step nco_step cnco fnco_min fnco_max
      = .ok (r.1, cnco, r.2) := by
  have hemp : freqs.isEmpty = false := by
    cases freqs with
    | nil => exact absurd rfl hf
    | cons a l => rfl
  unfold find_readout_lo_nco
  rw [hemp, if_neg Bool.false_ne_true]
  simp only [hr]

/-- C1: for every mux with a nonempty resonator list (and well-formed,
nonempty grids), `find_readout_lo_nco` returns `.ok (lo, cnco, fnco)` where
`cnco` is the given argument, `lo` and `fnco` lie on the declared grids
(`lo = lo_min + k·lo_step ≤ lo_max`, `fnco = fnco_min + k·nco_step ≤ fnco_max`),
the pair `(lo, fnco)` minimises `|lo + cnco + fnco - t|` for the midpoint
target `t`, and it is the first minimiser in enumeration order (`lo` ascending
outer loop, `fnco` ascending inner loop). -/
theorem C1_find_readout_lo_nco_first_argmin
    (freqs : List ℚ) (lo_min lo_max lo_step nco_step cnco fnco_min fnco_max : ℤ)
    (hf : freqs ≠ [])
    (hp : readoutPairs lo_min lo_max lo_step fnco_min fnco_max nco_step ≠ []) :
    ∃ lo fnco,
      find_readout_lo_nco freqs lo_min lo_max lo_step nco_step cnco fnco_min fnco_max
        = .ok (lo, cnco, fnco) ∧
      (∃ k : ℕ, lo = lo_min + (k : ℤ) * lo_step ∧ lo ≤ lo_max) ∧
      (∃ k : ℕ, fnco = fnco_min + (k : ℤ) * nco_step ∧ fnco ≤ fnco_max) ∧
      (∀ p ∈ readoutPairs lo_min lo_max lo_step fnco_min fnco_max nco_step,
        readoutDiff cnco (readoutTarget freqs) (lo, fnco)
          ≤ readoutDiff cnco (readoutTarget freqs) p) ∧
      (∃ l1 l2,
        readoutPairs lo_min lo_max lo_step fnco_min fnco_max nco_step
          = l1 ++ (lo, fnco) :: l2 ∧
        ∀ p ∈ l1, readoutDiff cnco (readoutTarget freqs) (lo, fnco)
          < readoutDiff cnco (readoutTarget freqs) p) := by
  obtain ⟨r, hr, hmin, l1, l2, hsplit, hfirst⟩ :=
    firstArgmin_spec (readoutDiff cnco (readoutTarget freqs))
      (readoutPairs lo_min lo_max lo_step fnco_min fnco_max nco_step) hp
  obtain ⟨lo, fnco⟩ := r
  have hne : freqs.isEmpty = false := by
    cases freqs with
    | nil => exact absurd rfl hf
    | cons a l => rfl
  have hmem : (lo, fnco) ∈ readoutPairs lo_min lo_max lo_step fnco_min fnco_max nco_step := by
    rw [hsplit]
    exact List.mem_append_right l1 (List.mem_cons_self _ _)
  obtain ⟨hlo, hfn⟩ := (mem_readoutPairs_iff lo fnco).mp hmem
  obtain ⟨k1, hk1, hk1'⟩ := pyRange_shape hlo
  obtain ⟨k2, hk2, hk2'⟩ := pyRange_shape hfn
  refine ⟨lo, fnco, ?_, ⟨k1, hk1, by omega⟩, ⟨k2, hk2, by omega⟩, hmin, l1, l2, hsplit, hfirst⟩
  simp only [find_readout_lo_nco, hne, Bool.false_eq_true, if_false, hr]

/-- Witness for C1: the theorem applied to a one-resonator mux at 10 GHz with
the default grids. -/
theorem C1_find_readout_lo_nco_first_argmin_witness :
    ∃ lo fnco,
      find_readout_lo_nco [(10 : ℚ)] 8000000000 11000000000 500000000 23437500 1500000000 (-234375000) 234375000
        = .ok (lo, 1500000000, fnco) ∧
      (∃ k : ℕ, lo = 8000000000 + (k : ℤ) * 500000000 ∧ lo ≤ 11000000000) ∧
      (∃ k : ℕ, fnco = -234375000 + (k : ℤ) * 23437500 ∧ fnco ≤ 234375000) ∧
      (∀ p ∈ readoutPairs 8000000000 11000000000 500000000 (-234375000) 234375000 23437500,
        readoutDiff 1500000000 (readoutTarget [(10 : ℚ)]) (lo, fnco)
          ≤ readoutDiff 1500000000 (readoutTarget [(10 : ℚ)]) p) ∧
      (∃ l1 l2,
        readoutPairs 8000000000 11000000000 500000000 (-234375000) 234375000 23437500
          = l1 ++ (lo, fnco) :: l2 ∧
        ∀ p ∈ l1, readoutDiff 1500000000 (readoutTarget [(10 : ℚ)]) (lo, fnco)
          < readoutDiff 1500000000 (readoutTarget [(10 : ℚ)]) p) :=
  C1_find_readout_lo_nco_first_argmin [(10 : ℚ)]
    8000000000 11000000000 500000000 23437500 1500000000 (-234375000) 234375000
    (by decide) (by decide)

lemma round_mul_bound (y c : ℚ) (hc : 0 < c) :
    |y - (round (y / c) : ℚ) * c| ≤ c / 2 := by
  have h := abs_sub_round (y / c)
  have he : y - (round (y / c) : ℚ) * c = (y / c - (round (y / c) : ℚ)) * c := by
    rw [sub_mul, div_mul_cancel₀ y hc.ne']
  rw [he, abs_mul, abs_of_pos hc]
  have h2 := mul_le_mul_of_nonneg_right h hc.le
  linarith

lemma round_bounds (q : ℚ) : (round q : ℚ) ≤ q + 1 / 2 ∧ q - 1 / 2 ≤ (round q : ℚ) := by
  have h := abs_le.mp (abs_sub_round q)
  exact ⟨by linarith [h.1], by linarith [h.2]⟩

/-- For any target inside the span reachable by the default readout grids,
some grid pair comes within 15 625 000 Hz of it (the worst case sits in the
gap between the fnco window of one LO step and the next). -/
lemma readout_good_pair (t : ℚ) (h1 : (9265625000 : ℚ) ≤ t) (h2 : t ≤ (12734375000 : ℚ)) :
    ∃ p ∈ readoutPairs 8000000000 11000000000 500000000 (-234375000) 234375000 23437500,
      readoutDiff 1500000000 t p ≤ 15625000 := by
  set kz : ℤ := round ((t - 9500000000) / 500000000) with hkz
  have hk : |t - 9500000000 - (kz : ℚ) * 500000000| ≤ 250000000 := by
    have hb := round_mul_bound (t - 9500000000) 500000000 (by norm_num)
    rw [← hkz] at hb
    calc |t - 9500000000 - (kz : ℚ) * 500000000| ≤ (500000000 : ℚ) / 2 := hb
    _ ≤ 250000000 := by norm_num
  have hkb := round_bounds ((t - 9500000000) / 500000000)
  rw [← hkz] at hkb
  have hq1 : (-(15 : ℚ) / 32) ≤ (t - 9500000000) / 500000000 := by
    rw [le_div_iff (by norm_num : (0 : ℚ) < 500000000)]
    linarith
  have hq2 : (t - 9500000000) / 500000000 ≤ 207 / 32 := by
    rw [div_le_iff (by norm_num : (0 : ℚ) < 500000000)]
    linarith
  have hkz0 : 0 ≤ kz := by
    have hgt : (-1 : ℚ) < (kz : ℚ) := by linarith [hkb.2]
    have : (-1 : ℤ) < kz := by exact_mod_cast hgt
    omega
  have hkz6 : kz ≤ 6 := by
    have hlt : (kz : ℚ) < 7 := by linarith [hkb.1]
    have : kz < 7 := by exact_mod_cast hlt
    omega
  have hy2 := abs_le.mp hk
  set mz : ℤ := round ((t - 9500000000 - (kz : ℚ) * 500000000) / 23437500) with hmz
  have hm : |t - 9500000000 - (kz : ℚ) * 500000000 - (mz : ℚ) * 23437500| ≤ 23437500 / 2 := by
    have hb := round_mul_bound (t - 9500000000 - (kz : ℚ) * 500000000) 23437500 (by norm_num)
    rw [← hmz] at hb
    exact hb
  have hmb := round_bounds ((t - 9500000000 - (kz : ℚ) * 500000000) / 23437500)
  rw [← hmz] at hmb
  have hq3 : (t - 9500000000 - (kz : ℚ) * 500000000) / 23437500 ≤ 32 / 3 := by
    rw [div_le_iff (by norm_num : (0 : ℚ) < 23437500)]
    linarith [hy2.2]
  have hq4 : (-(32 : ℚ) / 3) ≤ (t - 9500000000 - (kz : ℚ) * 500000000) / 23437500 := by
    rw [le_div_iff (by norm_num : (0 : ℚ) < 23437500)]
    linarith [hy2.1]
  have hmz1 : mz ≤ 11 := by
    have hlt : (mz : ℚ) < 12 := by linarith [hmb.1]
    have : mz < 12 := by exact_mod_cast hlt
    omega
  have hmz2 : -11 ≤ mz := by
    have hgt : (-12 : ℚ) < (mz : ℚ) := by linarith [hmb.2]
    have : (-12 : ℤ) < mz := by exact_mod_cast hgt
    omega
  set m : ℤ := max (-10) (min 10 mz) with hmdef
  have hm10a : -10 ≤ m := by omega
  have hm10b : m ≤ 10 := by omega
  have hmabs := abs_le.mp hm
  have habs : |t - 9500000000 - (kz : ℚ) * 500000000 - (m : ℚ) * 23437500| ≤ 15625000 := by
    rcases le_or_lt mz 10 with hA | hB
    · rcases le_or_lt (-10) mz with hC | hD
      · have hmeq : m = mz := by omega
        rw [hmeq]
        calc |t - 9500000000 - (kz : ℚ) * 500000000 - (mz : ℚ) * 23437500|
            ≤ 23437500 / 2 := hm
        _ ≤ 15625000 := by norm_num
      · have hmzeq : mz = -11 := by omega
        have hmeq : m = -10 := by omega
        rw [hmeq]
        rw [hmzeq] at hmabs
        push_cast at hmabs ⊢
        rw [abs_le]
        constructor
        · linarith [hy2.1]
        · linarith [hmabs.2]
    · have hmzeq : mz = 11 := by omega
      have hmeq : m = 10 := by omega
      rw [hmeq]
      rw [hmzeq] at hmabs
      push_cast at hmabs ⊢
      rw [abs_le]
      constructor
      · linarith [hy2.2]
      · linarith [hmabs.1]
  have hcast1 : ((kz.toNat : ℤ)) = kz := Int.toNat_of_nonneg hkz0
  have hcast2 : (((m + 10).toNat : ℤ)) = m + 10 := Int.toNat_of_nonneg (by omega)
  refine ⟨(8000000000 + kz * 500000000, m * 23437500), ?_, ?_⟩
  · rw [mem_readoutPairs_iff]
    constructor
    · rw [mem_pyRange_iff (by norm_num)]
      refine ⟨kz.toNat, by rw [hcast1], by rw [hcast1]; omega⟩
    · rw [mem_pyRange_iff (by norm_num)]
      refine ⟨(m + 10).toNat, by rw [hcast2]; ring, by rw [hcast2]; omega⟩
  · unfold readoutDiff
    rw [pyAbs_eq_abs]
    have heq : ((8000000000 + kz * 500000000 : ℤ) : ℚ) + ((1500000000 : ℤ) : ℚ)
        + ((m * 23437500 : ℤ) : ℚ) - t
        = -(t - 9500000000 - (kz : ℚ) * 500000000 - (m : ℚ) * 23437500) := by
      push_cast
      ring
    rw [heq, abs_neg]
    exact habs

/-- C6 counterexample: a mux whose single resonator sits at 100 GHz has its
midpoint target far outside the span reachable by the default grids, so the
setting chosen by `find_readout_lo_nco` misses the target by about 87 GHz,
far more than `nco_step/2 + lo_step/2`. -/
theorem C6_counterexample :
    ∃ lo fnco,
      find_readout_lo_nco [(100 : ℚ)] 8000000000 11000000000 500000000 23437500 1500000000 (-234375000) 234375000
        = .ok (lo, 1500000000, fnco) ∧
      ¬ readoutDiff 1500000000 (readoutTarget [(100 : ℚ)]) (lo, fnco)
          ≤ 23437500 / 2 + 500000000 / 2 := by
  obtain ⟨lo, fnco, heq, ⟨k1, hk1eq, hk1le⟩, ⟨k2, hk2eq, hk2le⟩, hmin, hfirst⟩ :=
    C1_find_readout_lo_nco_first_argmin [(100 : ℚ)]
      8000000000 11000000000 500000000 23437500 1500000000 (-234375000) 234375000
      (List.cons_ne_nil _ _) (by decide)
  refine ⟨lo, fnco, heq, ?_⟩
  have htar : readoutTarget [(100 : ℚ)] = 100000000000 := by
    norm_num [readoutTarget, maxQ, minQ]
  rw [htar]
  unfold readoutDiff
  rw [pyAbs_eq_abs]
  push_cast
  intro hle
  have hlo : (lo : ℚ) ≤ 11000000000 := by exact_mod_cast hk1le
  have hfn : (fnco : ℚ) ≤ 234375000 := by exact_mod_cast hk2le
  have hexp : (87265625000 : ℚ) ≤ -((lo : ℚ) + 1500000000 + (fnco : ℚ) - 100000000000) := by
    linarith
  have habs := neg_le_abs ((lo : ℚ) + 1500000000 + (fnco : ℚ) - 100000000000)
  norm_num at hle
  linarith

/-- C6 amended: whenever the midpoint target lies inside the span reachable
by the default grids (between 9 265 625 000 Hz and 12 734 375 000 Hz), the
chosen readout setting is within `nco_step/2 + lo_step/2` of the target. -/
theorem C6_readout_quantization_bound (freqs : List ℚ) (hf : freqs ≠ [])
    (h1 : (9265625000 : ℚ) ≤ readoutTarget freqs)
    (h2 : readoutTarget freqs ≤ 12734375000) :
    ∃ lo fnco,
      find_readout_lo_nco freqs 8000000000 11000000000 500000000 23437500 1500000000 (-234375000) 234375000
        = .ok (lo, 1500000000, fnco) ∧
      readoutDiff 1500000000 (readoutTarget freqs) (lo, fnco)
        ≤ 23437500 / 2 + 500000000 / 2 := by
  obtain ⟨p, hpmem, hpbound⟩ := readout_good_pair (readoutTarget freqs) h1 h2
  have hne : readoutPairs 8000000000 11000000000 500000000 (-234375000) 234375000 23437500 ≠ [] :=
    List.ne_nil_of_mem hpmem
  obtain ⟨r, hr, hmin, l1, l2, hsplit, hfirst⟩ :=
    firstArgmin_spec (readoutDiff 1500000000 (readoutTarget freqs))
      (readoutPairs 8000000000 11000000000 500000000 (-234375000) 234375000 23437500) hne
  obtain ⟨lo, fnco⟩ := r
  have hemp : freqs.isEmpty = false := by
    cases freqs with
    | nil => exact absurd rfl hf
    | cons a l => rfl
  refine ⟨lo, fnco, ?_, ?_⟩
  · exact find_readout_eq_ok freqs _ _ _ _ _ _ _ hf (lo, fnco) hr
  · calc readoutDiff 1500000000 (readoutTarget freqs) (lo, fnco)
        ≤ readoutDiff 1500000000 (readoutTarget freqs) p := hmin p hpmem
    _ ≤ 15625000 := hpbound
    _ ≤ 23437500 / 2 + 500000000 / 2 := by norm_num

/-- Witness for the amended C6 bound: a one-resonator mux at 10 GHz, whose
target 10 000 000 000 Hz lies inside the reachable span. -/
theorem C6_readout_quantization_bound_witness :
    ((9265625000 : ℚ) ≤ readoutTarget [(10 : ℚ)]) ∧
    (readoutTarget [(10 : ℚ)] ≤ 12734375000) ∧
    ∃ lo fnco,
      find_readout_lo_nco [(10 : ℚ)] 8000000000 11000000000 500000000 23437500 1500000000 (-234375000) 234375000
        = .ok (lo, 1500000000, fnco) ∧
      readoutDiff 1500000000 (readoutTarget [(10 : ℚ)]) (lo, fnco)
        ≤ 23437500 / 2 + 500000000 / 2 := by
  have h1 : (9265625000 : ℚ) ≤ readoutTarget [(10 : ℚ)] := by
    norm_num [readoutTarget, maxQ, minQ]
  have h2 : readoutTarget [(10 : ℚ)] ≤ 12734375000 := by
    norm_num [readoutTarget, maxQ, minQ]
  exact ⟨h1, h2, C6_readout_quantization_bound [(10 : ℚ)] (List.cons_ne_nil _ _) h1 h2⟩

/-- Python `sum` over a list of rationals (numpy mean numerator). -/
def sumQ (l : List ℚ) : ℚ := l.foldl (fun a b => a + b) 0

/-- The sublist of `fs` covered by the window `[p - d, p + d]`
(the comprehension `[f for f in frequencies if p - d <= f <= p + d]`). -/
def covered (fs : List ℚ) (d p : ℚ) : List ℚ :=
  fs.filter (fun f => decide (p - d ≤ f ∧ f ≤ p + d))

/-- `np.sum([1 for f in frequencies if p - d <= f <= p + d])`. -/
def coverCount (fs : List ℚ) (d p : ℚ) : ℕ := (covered fs d p).length

/-- `np.mean([f for f in frequencies if p - d <= f <= p + d] or [0])`:
the mean of the covered frequencies, `0` when none is covered. -/
def coverMean (fs : List ℚ) (d p : ℚ) : ℚ :=
  if (covered fs d p).isEmpty then 0
  else sumQ (covered fs d p) / ((covered fs d p).length : ℚ)

/-- Python `max(list, key=lambda x: x[0])`: the first element with maximal
first component (`max` replaces the best only on strict improvement). -/
def pyMaxByFst : List (ℕ × ℚ) → Option (ℕ × ℚ)
  | [] => none
  | x :: xs => some (xs.foldl (fun b y => if b.1 < y.1 then y else b) x)

/-- `ExperimentSystem.find_optimal_center_frequency`: drop non-positive
frequencies; if none remain return 0; if one `max_diff` window covers all,
return the midpoint; otherwise probe candidate window centres (from the
mandatory extremes when mandatory frequencies are given, else both edges of
every frequency) and return the mean of the covered set of the first probe
with maximal coverage. Mandatory frequencies whose own spread exceeds
`max_diff` raise `ValueError`. -/
def find_optimal_center_frequency (frequencies : List ℚ) (max_diff : ℚ)
    (mandatory_frequencies : Option (List ℚ)) : Except String ℚ :=
  let fs := frequencies.filter (fun f => decide (0 < f))
  if fs.isEmpty then .ok 0
  else
    let f_max := maxQ fs
    let f_min := minQ fs
    if f_max - f_min ≤ max_diff then .ok ((f_max + f_min) / 2)
    else
      let d := max_diff * (1 / 2)
      let points : Except String (List ℚ) :=
        match mandatory_frequencies with
        | some mf =>
          if mf.isEmpty then .error "min of empty sequence"
          else
            let mf_min := minQ mf
            let mf_max := maxQ mf
            if max_diff < mf_max - mf_min then
              .error "Mandatory frequencies cannot be covered."
            else .ok [mf_max - d, mf_min + d]
        | none => .ok (fs.map (fun f => f - d) ++ fs.map (fun f => f + d))
      match points with
      | .error e => .error e
      | .ok pts =>
        match pyMaxByFst (pts.map (fun p => (coverCount fs d p, coverMean fs d p))) with
        | none => .error "max of empty sequence"
        | some best => .ok best.2

/-- C3: `find_optimal_center_frequency` first discards all non-positive
entries; if nothing remains it returns exactly 0, and otherwise, whenever
max minus min of the remaining entries is at most `max_diff`, it returns
their midpoint `(max + min) / 2` — for every `mandatory_frequencies`
argument, since the mandatory check only occurs in the later branch. -/
theorem C3_find_optimal_center_frequency_cases
    (frequencies : List ℚ) (max_diff : ℚ) (mandatory : Option (List ℚ)) :
    (frequencies.filter (fun f => decide (0 < f)) = [] →
      find_optimal_center_frequency frequencies max_diff mandatory = .ok 0) ∧
    (frequencies.filter (fun f => decide (0 < f)) ≠ [] →
      maxQ (frequencies.filter (fun f => decide (0 < f)))
          - minQ (frequencies.filter (fun f => decide (0 < f))) ≤ max_diff →
      find_optimal_center_frequency frequencies max_diff mandatory
        = .ok ((maxQ (frequencies.filter (fun f => decide (0 < f)))
            + minQ (frequencies.filter (fun f => decide (0 < f)))) / 2)) := by
  constructor
  · intro h
    simp [find_optimal_center_frequency, h]
  · intro h1 h2
    have hemp : (frequencies.filter (fun f => decide (0 < f))).isEmpty = false := by
      cases hfs : frequencies.filter (fun f => decide (0 < f)) with
      | nil => exact absurd hfs h1
      | cons a l => rfl
    unfold find_optimal_center_frequency
    simp only [hemp, Bool.false_eq_true, if_false, if_pos h2]

/-- Witness for C3: the empty-after-filter case returns 0, and the
one-window case returns the midpoint (here `(4 + 3) / 2 = 7/2`). -/
theorem C3_find_optimal_center_frequency_cases_witness :
    find_optimal_center_frequency [(-1 : ℚ), 0] 5 none = .ok 0 ∧
    find_optimal_center_frequency [(3 : ℚ), 4] 5 none = .ok (7 / 2) := by
  constructor
  · exact (C3_find_optimal_center_frequency_cases [(-1 : ℚ), 0] 5 none).1 (by decide)
  · have hf : [(3 : ℚ), 4].filter (fun f => decide (0 < f)) = [3, 4] := by decide
    have hle : maxQ ([(3 : ℚ), 4].filter (fun f => decide (0 < f)))
        - minQ ([(3 : ℚ), 4].filter (fun f => decide (0 < f))) ≤ 5 := by
      rw [hf]
      norm_num [maxQ, minQ]
    have heval := (C3_find_optimal_center_frequency_cases [(3 : ℚ), 4] 5 none).2
      (by decide) hle
    rw [hf] at heval
    norm_num [maxQ, minQ] at heval
    convert heval using 2

/-- C4 counterexample: `find_optimal_center_frequency({0,1000}, max_diff=10,
mandatory=[0,1000])` does not raise — the `0` is filtered out, the remaining
spread is `0 ≤ max_diff`, and the midpoint branch returns 1000.0 before the
mandatory check is ever reached. -/
theorem C4_counterexample :
    find_optimal_center_frequency [(0 : ℚ), 1000] 10 (some [0, 1000]) = .ok 1000 := by
  have hf : [(0 : ℚ), 1000].filter (fun f => decide (0 < f)) = [1000] := by decide
  unfold find_optimal_center_frequency
  simp only [hf]
  norm_num [maxQ, minQ]

/-- C4 amended: on `{0, 1000}` the call returns 1000.0 (midpoint branch wins
before the mandatory check); the raw mandatory check with
`UnsatisfiableConstraintError` fires only when the filtered spread exceeds
`max_diff`, e.g. on frequencies `{0, 989, 1000}` with the same mandatory
list. -/
theorem C4_mandatory_check_branch :
    find_optimal_center_frequency [(0 : ℚ), 1000] 10 (some [0, 1000]) = .ok 1000 ∧
    find_optimal_center_frequency [(0 : ℚ), 989, 1000] 10 (some [0, 1000])
      = .error "Mandatory frequencies cannot be covered." := by
  constructor
  · have hf : [(0 : ℚ), 1000].filter (fun f => decide (0 < f)) = [1000] := by decide
    unfold find_optimal_center_frequency
    simp only [hf]
    norm_num [maxQ, minQ]
  · have hf : [(0 : ℚ), 989, 1000].filter (fun f => decide (0 < f)) = [989, 1000] := by decide
    unfold find_optimal_center_frequency
    simp only [hf]
    norm_num [maxQ, minQ]

/-- C5 counterexample: `find_optimal_center_frequency({90,110}, max_diff=10)`
returns 90.0, not 100.0 — the spread 20 exceeds `max_diff`, so the coverage
search runs and its first maximal probe covers `{90}` with mean 90.0. -/
theorem C5_counterexample :
    find_optimal_center_frequency [(90 : ℚ), 110] 10 none = .ok 90 := by
  have hf : [(90 : ℚ), 110].filter (fun f => decide (0 < f)) = [90, 110] := by decide
  unfold find_optimal_center_frequency
  simp only [hf]
  norm_num [maxQ, minQ, covered, coverCount, coverMean, sumQ, pyMaxByFst, List.filter]

/-- C5 amended: with `max_diff = 10`, `{100,100}` returns 100.0 (spread 0,
midpoint branch), but `{90,110}` returns 90.0 — its spread 20 exceeds
`max_diff`, so the coverage search returns the mean of the first maximal
probe window, which covers only `{90}`. -/
theorem C5_center_frequency_values :
    find_optimal_center_frequency [(100 : ℚ), 100] 10 none = .ok 100 ∧
    find_optimal_center_frequency [(90 : ℚ), 110] 10 none = .ok 90 := by
  constructor
  · have hf : [(100 : ℚ), 100].filter (fun f => decide (0 < f)) = [100, 100] := by decide
    unfold find_optimal_center_frequency
    simp only [hf]
    norm_num [maxQ, minQ]
  · have hf : [(90 : ℚ), 110].filter (fun f => decide (0 < f)) = [90, 110] := by decide
    unfold find_optimal_center_frequency
    simp only [hf]
    norm_num [maxQ, minQ, covered, coverCount, coverMean, sumQ, pyMaxByFst, List.filter]

/-- Tags naming the mandatory control target frequencies (`"ge"`/`"ef"`), as
passed in `find_control_lo_nco`'s `mandatory` parameter. -/
inductive CtrlTag : Type
  | ge : CtrlTag
  | ef : CtrlTag
deriving DecidableEq

/-- `ExperimentSystem._calc_cr_target_frequency`: positive spectator GE
frequencies in GHz; the qubit's own GE frequency when there are none,
otherwise the optimal centre frequency with no mandatory subset. -/
def calc_cr_target_frequency (qubit_ge : ℚ) (spectator_ges : List ℚ) (max_diff : ℚ) :
    Except String ℚ :=
  let frequencies := spectator_ges.filter (fun s => decide (0 < s))
  if frequencies.isEmpty then .ok qubit_ge
  else find_optimal_center_frequency frequencies max_diff none

/-- With no mandatory subset, `find_optimal_center_frequency` always
succeeds: the only raising branch is the mandatory check. -/
lemma find_optimal_none_ok (fs : List ℚ) (md : ℚ) :
    ∃ v, find_optimal_center_frequency fs md none = .ok v := by
  unfold find_optimal_center_frequency
  cases hfs : (fs.filter (fun f => decide (0 < f))) with
  | nil => exact ⟨0, by simp⟩
  | cons a l =>
    simp only [hfs]
    rw [List.isEmpty_cons, if_neg Bool.false_ne_true]
    by_cases hsp : maxQ (a :: l) - minQ (a :: l) ≤ md
    · rw [if_pos hsp]
      exact ⟨_, rfl⟩
    · rw [if_neg hsp]
      exact ⟨_, rfl⟩

lemma calc_cr_ok (qubit_ge : ℚ) (spectator_ges : List ℚ) (max_diff : ℚ) :
    ∃ v, calc_cr_target_frequency qubit_ge spectator_ges max_diff = .ok v := by
  unfold calc_cr_target_frequency
  cases hfs : (spectator_ges.filter (fun s => decide (0 < s))).isEmpty with
  | true => exact ⟨qubit_ge, by rw [if_pos hfs]⟩
  | false =>
    rw [if_neg (by rw [hfs]; exact Bool.false_ne_true)]
    exact find_optimal_none_ok _ _

/-- `ExperimentSystem.find_control_lo_nco`, over a qubit's data: `ge`/`ef`
are the looked-up qubit's transition frequencies in GHz, `qubit_ge` the
passed qubit object's own GE frequency (the CR fallback), `spectator_ges`
the GE frequencies of the qubit's spectator qubits in GHz. The CR target is
computed eagerly (the Python dict `f` is built before the channel check). -/
def find_control_lo_nco (ge ef qubit_ge : ℚ) (spectator_ges : List ℚ)
    (n_channels : ℕ) (mandatory : Option (List CtrlTag))
    (lo_min lo_max lo_step nco_step cnco fnco_min fnco_max max_diff : ℤ) :
    Except String (ℤ × ℤ × (ℤ × ℤ × ℤ)) :=
  match calc_cr_target_frequency qubit_ge spectator_ges (1 / 4) with
  | .error e => .error e
  | .ok cr =>
    let f_ge := ge * 1000000000
    let f_ef := ef * 1000000000
    let f_cr := cr * 1000000000
    let f_target_e : Except String ℚ :=
      if n_channels = 1 then .ok f_ge
      else if n_channels = 3 then
        let f_spectators := (spectator_ges.filter (fun s => decide (0 < s))).map
          (fun s => s * 1000000000)
        let md := mandatory.getD [CtrlTag.ge]
        let mandatory_frequencies := md.map
          (fun t => match t with | CtrlTag.ge => f_ge | CtrlTag.ef => f_ef)
        find_optimal_center_frequency (mandatory_frequencies ++ f_spectators)
          ((max_diff : ℤ) : ℚ) (some mandatory_frequencies)
      else .error "Invalid number of channels: "
    match f_target_e with
    | .error e => .error e
    | .ok f_target =>
      match firstArgmin (fun lo : ℤ => pyAbs ((lo : ℚ) - (cnco : ℚ) - f_target))
          (pyRange lo_min (lo_max + 1) lo_step) with
      | none => .error "No valid lo value found for: "
      | some best_lo =>
        let find_fnco : ℚ → Except String ℤ := fun target_frequency =>
          match firstArgmin
              (fun fnco : ℤ => pyAbs (pyAbs ((best_lo : ℚ) - (cnco : ℚ) - (fnco : ℚ)) - target_frequency))
              (pyRange fnco_min (fnco_max + 1) nco_step) with
          | none => .error "No valid fnco value found for: "
          | some b => .ok b
        match find_fnco f_ge with
        | .error e => .error e
        | .ok fnco_ge =>
          if n_channels = 1 then .ok (best_lo, cnco, (fnco_ge, 0, 0))
          else
            match find_fnco f_ef with
            | .error e => .error e
            | .ok fnco_ef =>
              match find_fnco f_cr with
              | .error e => .error e
              | .ok fnco_cr => .ok (best_lo, cnco, (fnco_ge, fnco_ef, fnco_cr))

/-- C2: with `n_channels = 1` the planner searches for the GE frequency alone
(the chosen LO minimises `|lo - cnco - ge·1e9|` over the LO grid, regardless
of `ef`, CR or spectators) and its fnco triple is `(fnco_ge, 0, 0)`; any
`n_channels` other than 1 or 3 fails with the invalid-channel error. -/
theorem C2_find_control_lo_nco_channels
    (ge ef qubit_ge : ℚ) (sp : List ℚ) (md : Option (List CtrlTag))
    (lo_min lo_max lo_step nco_step cnco fnco_min fnco_max max_diff : ℤ)
    (hlo : pyRange lo_min (lo_max + 1) lo_step ≠ [])
    (hfn : pyRange fnco_min (fnco_max + 1) nco_step ≠ []) :
    (∃ best_lo fnco_ge,
      find_control_lo_nco ge ef qubit_ge sp 1 md
          lo_min lo_max lo_step nco_step cnco fnco_min fnco_max max_diff
        = .ok (best_lo, cnco, (fnco_ge, 0, 0)) ∧
      best_lo ∈ pyRange lo_min (lo_max + 1) lo_step ∧
      ∀ lo ∈ pyRange lo_min (lo_max + 1) lo_step,
        pyAbs ((best_lo : ℚ) - (cnco : ℚ) - ge * 1000000000)
          ≤ pyAbs ((lo : ℚ) - (cnco : ℚ) - ge * 1000000000)) ∧
    (∀ n : ℕ, n ≠ 1 → n ≠ 3 →
      find_control_lo_nco ge ef qubit_ge sp n md
          lo_min lo_max lo_step nco_step cnco fnco_min fnco_max max_diff
        = .error "Invalid number of channels: ") := by
  obtain ⟨cr, hcr⟩ := calc_cr_ok qubit_ge sp (1 / 4)
  constructor
  · obtain ⟨blo, hblo, hmin, l1, l2, hsplit, hfirst⟩ :=
      firstArgmin_spec (fun lo : ℤ => pyAbs ((lo : ℚ) - (cnco : ℚ) - ge * 1000000000))
        (pyRange lo_min (lo_max + 1) lo_step) hlo
    obtain ⟨bfn, hbfn, hmin2, m1, m2, hsplit2, hfirst2⟩ :=
      firstArgmin_spec
        (fun fnco : ℤ => pyAbs (pyAbs ((blo : ℚ) - (cnco : ℚ) - (fnco : ℚ)) - ge * 1000000000))
        (pyRange fnco_min (fnco_max + 1) nco_step) hfn
    refine ⟨blo, bfn, ?_, ?_, hmin⟩
    · unfold find_control_lo_nco
      rw [hcr]
      norm_num [hblo, hbfn]
    · rw [hsplit]
      exact List.mem_append_right l1 (List.mem_cons_self _ _)
  · intro n h1 h3
    unfold find_control_lo_nco
    rw [hcr]
    simp only [if_neg h1, if_neg h3]

/-- Witness for C2: the theorem applied at `ge = 9` GHz, `ef = 8` GHz with
the default grids. -/
theorem C2_find_control_lo_nco_channels_witness :
    (∃ best_lo fnco_ge,
      find_control_lo_nco (9 : ℚ) 8 9 [] 1 none
          8000000000 11000000000 500000000 23437500 2250000000 (-750000000) 750000000 1500000000
        = .ok (best_lo, 2250000000, (fnco_ge, 0, 0)) ∧
      best_lo ∈ pyRange 8000000000 (11000000000 + 1) 500000000 ∧
      ∀ lo ∈ pyRange 8000000000 (11000000000 + 1) 500000000,
        pyAbs ((best_lo : ℚ) - ((2250000000 : ℤ) : ℚ) - (9 : ℚ) * 1000000000)
          ≤ pyAbs ((lo : ℚ) - ((2250000000 : ℤ) : ℚ) - (9 : ℚ) * 1000000000)) ∧
    (∀ n : ℕ, n ≠ 1 → n ≠ 3 →
      find_control_lo_nco (9 : ℚ) 8 9 [] n none
          8000000000 11000000000 500000000 23437500 2250000000 (-750000000) 750000000 1500000000
        = .error "Invalid number of channels: ") :=
  C2_find_control_lo_nco_channels (9 : ℚ) 8 9 [] none
    8000000000 11000000000 500000000 23437500 2250000000 (-750000000) 750000000 1500000000
    (by decide) (by decide)

/-- A chunk matching the regex `Q\d+` (ASCII digits, per the source
regexes in `Target.qubit_label`). -/
def isQnum (s : List Char) : Bool :=
  match s with
  | [] => false
  | c :: ds => decide (c = 'Q') && (!ds.isEmpty && ds.all Char.isDigit)

/-- Match of the anchored regex `^(Q\d+)<suf>$`: the suffix must sit at the
end and the rest must be a `Q\d+` chunk. -/
def qsuffix (s : List Char) (suf : List Char) : Bool :=
  decide (s.drop (s.length - suf.length) = suf) && isQnum (s.take (s.length - suf.length))

/-- Split a character list at the first character satisfying `p`. -/
def splitFirst (p : Char → Bool) : List Char → Option (List Char × Char × List Char)
  | [] => none
  | c :: cs =>
    if p c then some ([], c, cs)
    else
      match splitFirst p cs with
      | none => none
      | some x => some (c :: x.1, x.2.1, x.2.2)

/-- Match of `^(Q\d+)-(Q\d+)$` (both sides of the unique dash are `Q\d+`
chunks; a `Q\d+` chunk cannot contain a dash, so the first dash decides). -/
def qpairSplit (s : List Char) : Option (List Char) :=
  match splitFirst (fun c => decide (c = '-')) s with
  | some x => if isQnum x.1 && isQnum x.2.2 then some x.1 else none
  | none => none

/-- The character class `[a-zA-Z0-9]`. -/
def isAlnumChar (c : Char) : Bool := c.isAlpha || c.isDigit

/-- Match of the generic fallback `^(Q\d+)(-|_)[a-zA-Z0-9]+$`. -/
def qgenericSplit (s : List Char) : Option (List Char) :=
  match splitFirst (fun c => decide (c = '-') || decide (c = '_')) s with
  | some x =>
    if isQnum x.1 && (!x.2.2.isEmpty && x.2.2.all isAlnumChar) then some x.1 else none
  | none => none

/-- `Target.qubit_label`: extract the qubit label from a target label by
trying, in order, `R<Q>`, `<Q>`, `<Q>-ef`, `<Q>-CR`, `<Q1>-<Q2>` (returning
`<Q1>`), and the generic `<Q>[-_]<alnum>+`; otherwise raise `ValueError`. -/
def qubit_label (s : List Char) : Except String (List Char) :=
  if decide (s.head? = some 'R') && isQnum s.tail then .ok s.tail
  else if isQnum s then .ok s
  else if qsuffix s ['-', 'e', 'f'] then .ok (s.take (s.length - 3))
  else if qsuffix s ['-', 'C', 'R'] then .ok (s.take (s.length - 3))
  else
    match qpairSplit s with
    | some q => .ok q
    | none =>
      match qgenericSplit s with
      | some q => .ok q
      | none => .error "Invalid target label"

/-- `Target.ge_label`: the GE label is the qubit label itself. -/
def ge_label (s : List Char) : Except String (List Char) :=
  (qubit_label s).map (fun q => q)

/-- `Target.ef_label`: `<Q>-ef`. -/
def ef_label (s : List Char) : Except String (List Char) :=
  (qubit_label s).map (fun q => q ++ ['-', 'e', 'f'])

/-- `Target.cr_label`: `<Q>-CR`. -/
def cr_label (s : List Char) : Except String (List Char) :=
  (qubit_label s).map (fun q => q ++ ['-', 'C', 'R'])

/-- `Target.read_label`: `R<Q>`. -/
def read_label (s : List Char) : Except String (List Char) :=
  (qubit_label s).map (fun q => 'R' :: q)

lemma isQnum_q (ds : List Char) (h1 : ds ≠ []) (h2 : ds.all Char.isDigit = true) :
    isQnum ('Q' :: ds) = true := by
  have hds : ds.isEmpty = false := by
    cases ds with
    | nil => exact absurd rfl h1
    | cons a l => rfl
  simp [isQnum, hds, h2]

lemma qubit_label_q (ds : List Char) (h1 : ds ≠ []) (h2 : ds.all Char.isDigit = true) :
    qubit_label ('Q' :: ds) = .ok ('Q' :: ds) := by
  unfold qubit_label
  rw [show decide ((('Q' : Char) :: ds).head? = some 'R') = false from rfl,
    Bool.false_and, if_neg Bool.false_ne_true]
  rw [isQnum_q ds h1 h2, if_pos rfl]

lemma qubit_label_ef_form (ds : List Char) (h1 : ds ≠ []) (h2 : ds.all Char.isDigit = true) :
    qubit_label (('Q' :: ds) ++ ['-', 'e', 'f']) = .ok ('Q' :: ds) := by
  have hlen : ((('Q' :: ds) ++ ['-', 'e', 'f']).length - 3) = ('Q' :: ds).length := by
    simp
  have hnq : isQnum (('Q' :: ds) ++ ['-', 'e', 'f']) = false := by
    simp [isQnum, List.all_append,
      show ((['-', 'e', 'f'] : List Char).all Char.isDigit) = false from rfl]
  have hq3 : qsuffix (('Q' :: ds) ++ ['-', 'e', 'f']) ['-', 'e', 'f'] = true := by
    unfold qsuffix
    rw [show ((['-', 'e', 'f'] : List Char).length) = 3 from rfl, hlen,
      List.drop_left, List.take_left]
    simp [isQnum_q ds h1 h2]
  unfold qubit_label
  rw [show decide (((('Q' :: ds) ++ ['-', 'e', 'f']).head?) = some 'R') = false from rfl,
    Bool.false_and, if_neg Bool.false_ne_true,
    hnq, if_neg Bool.false_ne_true,
    hq3, if_pos rfl]
  rw [hlen, List.take_left]

lemma qubit_label_cr_form (ds : List Char) (h1 : ds ≠ []) (h2 : ds.all Char.isDigit = true) :
    qubit_label (('Q' :: ds) ++ ['-', 'C', 'R']) = .ok ('Q' :: ds) := by
  have hlen : ((('Q' :: ds) ++ ['-', 'C', 'R']).length - 3) = ('Q' :: ds).length := by
    simp
  have hnq : isQnum (('Q' :: ds) ++ ['-', 'C', 'R']) = false := by
    simp [isQnum, List.all_append,
      show ((['-', 'C', 'R'] : List Char).all Char.isDigit) = false from rfl]
  have hq3 : qsuffix (('Q' :: ds) ++ ['-', 'C', 'R']) ['-', 'e', 'f'] = false := by
    unfold qsuffix
    rw [show ((['-', 'e', 'f'] : List Char).length) = 3 from rfl, hlen, List.drop_left]
    rw [show decide ((['-', 'C', 'R'] : List Char) = ['-', 'e', 'f']) = false from rfl,
      Bool.false_and]
  have hq4 : qsuffix (('Q' :: ds) ++ ['-', 'C', 'R']) ['-', 'C', 'R'] = true := by
    unfold qsuffix
    rw [show ((['-', 'C', 'R'] : List Char).length) = 3 from rfl, hlen,
      List.drop_left, List.take_left]
    simp [isQnum_q ds h1 h2]
  unfold qubit_label
  rw [show decide (((('Q' :: ds) ++ ['-', 'C', 'R']).head?) = some 'R') = false from rfl,
    Bool.false_and, if_neg Bool.false_ne_true,
    hnq, if_neg Bool.false_ne_true,
    hq3, if_neg Bool.false_ne_true,
    hq4, if_pos rfl]
  rw [hlen, List.take_left]

lemma qubit_label_read_form (ds : List Char) (h1 : ds ≠ []) (h2 : ds.all Char.isDigit = true) :
    qubit_label ('R' :: 'Q' :: ds) = .ok ('Q' :: ds) := by
  unfold qubit_label
  rw [show decide ((('R' : Char) :: 'Q' :: ds).head? = some 'R') = true from rfl,
    Bool.true_and]
  rw [show (('R' : Char) :: 'Q' :: ds).tail = 'Q' :: ds from rfl,
    isQnum_q ds h1 h2, if_pos rfl]

/-- C9: for every qubit label of the grammar form `Q<digits>`, `qubit_label`
round-trips through each of `ge_label`, `ef_label`, `cr_label` and
`read_label`: applying `qubit_label` to the produced label returns the
original qubit label. -/
theorem C9_qubit_label_roundtrip (ds : List Char) (h1 : ds ≠ [])
    (h2 : ds.all Char.isDigit = true) :
    (ge_label ('Q' :: ds)).bind qubit_label = .ok ('Q' :: ds) ∧
    (ef_label ('Q' :: ds)).bind qubit_label = .ok ('Q' :: ds) ∧
    (cr_label ('Q' :: ds)).bind qubit_label = .ok ('Q' :: ds) ∧
    (read_label ('Q' :: ds)).bind qubit_label = .ok ('Q' :: ds) := by
  have hql := qubit_label_q ds h1 h2
  refine ⟨?_, ?_, ?_, ?_⟩
  · rw [ge_label, hql]
    exact hql
  · rw [ef_label, hql]
    exact qubit_label_ef_form ds h1 h2
  · rw [cr_label, hql]
    exact qubit_label_cr_form ds h1 h2
  · rw [read_label, hql]
    exact qubit_label_read_form ds h1 h2

/-- Witness for C9: the round trip at the concrete qubit label `Q08`. -/
theorem C9_qubit_label_roundtrip_witness :
    (ge_label ['Q', '0', '8']).bind qubit_label = .ok ['Q', '0', '8'] ∧
    (ef_label ['Q', '0', '8']).bind qubit_label = .ok ['Q', '0', '8'] ∧
    (cr_label ['Q', '0', '8']).bind qubit_label = .ok ['Q', '0', '8'] ∧
    (read_label ['Q', '0', '8']).bind qubit_label = .ok ['Q', '0', '8'] :=
  C9_qubit_label_roundtrip ['0', '8'] (by decide) (by decide)

/-- Python `dict` as an association list: insertion keeps the original
position of an existing key (value replaced), otherwise appends. -/
def dictInsert {α β : Type} [DecidableEq α] (k : α) (v : β) : List (α × β) → List (α × β)
  | [] => [(k, v)]
  | kv :: rest => if kv.1 = k then (kv.1, v) :: rest else kv :: dictInsert k v rest

/-- Python `dict` lookup. -/
def dictLookup {α β : Type} [DecidableEq α] : List (α × β) → α → Option β
  | [], _ => none
  | kv :: rest, k => if kv.1 = k then some kv.2 else dictLookup rest k

/-- Python `a | b` dict union: right operand's values win on common keys,
its new keys are appended in order. -/
def dictUnion {α β : Type} [DecidableEq α] (a b : List (α × β)) : List (α × β) :=
  b.foldl (fun m kv => dictInsert kv.1 kv.2 m) a

/-- Python `dict.get(k, default)`. -/
def lookupD {α β : Type} [DecidableEq α] (m : List (α × β)) (k : α) (dflt : β) : β :=
  (dictLookup m k).getD dflt

/-- Python list comprehension with a fallible body: the first exception
aborts the whole comprehension. -/
def mapME {α β : Type} (f : α → Except String β) : List α → Except String (List β)
  | [] => .ok []
  | x :: xs =>
    match f x with
    | .error e => .error e
    | .ok y =>
      match mapME f xs with
      | .error e => .error e
      | .ok ys => .ok (y :: ys)

/-- A fallible left fold: Python loop whose body may raise. -/
def foldME {α β : Type} (f : β → α → Except String β) : β → List α → Except String β
  | b, [] => .ok b
  | b, x :: xs =>
    match f b x with
    | .error e => .error e
    | .ok b2 => foldME f b2 xs

/-- Python `dict[k]`: `KeyError` when the key is missing. -/
def lookupE {β : Type} (m : List (String × β)) (k : String) : Except String β :=
  match dictLookup m k with
  | some v => .ok v
  | none => .error ("KeyError: " ++ k)

/-- A qubit record: label and GE/EF transition frequencies in GHz
(`quantum_system.Qubit`; 0 means unset). -/
structure Qubit where
  label : String
  ge_frequency : ℚ
  ef_frequency : ℚ
deriving DecidableEq

/-- A resonator record: label, owning qubit label, frequency in GHz. -/
structure Resonator where
  label : String
  qubit : String
  frequency : ℚ
deriving DecidableEq

/-- A readout multiplexing group: index plus its resonators. -/
structure Mux where
  index : ℤ
  resonators : List Resonator
deriving DecidableEq

/-- Port roles (`control_system.PortType`). -/
inductive PortType : Type
  | CTRL : PortType
  | READ_OUT : PortType
  | READ_IN : PortType
  | NOT_AVAILABLE : PortType
deriving DecidableEq

/-- A generator port: identifier, channel count and role
(`control_system.GenPort`; channels are addressed by index). -/
structure GenPort where
  id : String
  n_channels : ℕ
  type : PortType
deriving DecidableEq

/-- A capture port (`control_system.CapPort`). -/
structure CapPort where
  id : String
  n_channels : ℕ
  type : PortType
deriving DecidableEq

/-- A port is a generator or a capture port. -/
inductive Port : Type
  | gen : GenPort → Port
  | cap : CapPort → Port
deriving DecidableEq

/-- A box owns an ordered collection of ports. -/
structure Box where
  id : String
  ports : List Port
deriving DecidableEq

/-- The control-hardware topology: a list of boxes. -/
structure ControlSystem where
  boxes : List Box
deriving DecidableEq

/-- Modelled from the spec: the Quantum Topology Provider
(`quantum_system.py`, not under src/) supplies qubits with calibrated
frequencies, muxes, a qubit lookup by label, and the topology-defined
spectator relation; modelled as finite lists plus an adjacency map from
qubit label to spectator labels. -/
structure QuantumSystem where
  qubits : List Qubit
  muxes : List Mux
  spectator_map : List (String × List String)
deriving DecidableEq

/-- Modelled from the spec: `QuantumSystem.get_qubit` by label (raises
`KeyError` on a miss at its call sites). -/
def QuantumSystem.get_qubit? (qs : QuantumSystem) (label : String) : Option Qubit :=
  qs.qubits.find? (fun q => q.label = label)

/-- Modelled from the spec: `QuantumSystem.get_spectator_qubits` — the
topology-defined neighbouring qubits of a qubit. -/
def QuantumSystem.get_spectator_qubits (qs : QuantumSystem) (label : String) : List Qubit :=
  ((dictLookup qs.spectator_map label).getD []).filterMap qs.get_qubit?

/-- `WiringInfo`: which generator/capture port serves which qubit/mux. -/
structure WiringInfo where
  ctrl : List (Qubit × GenPort)
  read_out : List (Mux × GenPort)
  read_in : List (Mux × CapPort)
deriving DecidableEq

/-- `ControlParams`: sparse per-qubit / per-mux hardware knobs. -/
structure ControlParams where
  control_amplitude : List (String × ℚ)
  readout_amplitude : List (String × ℚ)
  control_vatt : List (String × ℤ)
  readout_vatt : List (ℤ × ℤ)
  control_fsc : List (String × ℤ)
  readout_fsc : List (ℤ × ℤ)
  capture_delay : List (ℤ × ℤ)
deriving DecidableEq

def ControlParams.get_control_amplitude (p : ControlParams) (qubit : String) : ℚ :=
  lookupD p.control_amplitude qubit (3 / 100)

def ControlParams.get_readout_amplitude (p : ControlParams) (qubit : String) : ℚ :=
  lookupD p.readout_amplitude qubit (1 / 100)

def ControlParams.get_control_vatt (p : ControlParams) (qubit : String) : ℤ :=
  lookupD p.control_vatt qubit 3072

def ControlParams.get_readout_vatt (p : ControlParams) (mux : ℤ) : ℤ :=
  lookupD p.readout_vatt mux 2048

def ControlParams.get_control_fsc (p : ControlParams) (qubit : String) : ℤ :=
  lookupD p.control_fsc qubit 40527

def ControlParams.get_readout_fsc (p : ControlParams) (mux : ℤ) : ℤ :=
  lookupD p.readout_fsc mux 40527

def ControlParams.get_capture_delay (p : ControlParams) (mux : ℤ) : ℤ :=
  lookupD p.capture_delay mux 7

/-- `QubitPortSet`: the per-qubit port triple. -/
structure QubitPortSet where
  ctrl_port : GenPort
  read_out_port : GenPort
  read_in_port : CapPort
deriving DecidableEq

/-- `get_mux_by_readout_port` for a generator port: first mux wired to it in
`read_out`. -/
def get_mux_by_readout_gen_port (wiring : WiringInfo) (port : GenPort) : Option Mux :=
  (wiring.read_out.find? (fun mp => mp.2 = port)).map (fun mp => mp.1)

/-- `get_mux_by_readout_port` for a capture port: first mux wired to it in
`read_in`. -/
def get_mux_by_readout_cap_port (wiring : WiringInfo) (port : CapPort) : Option Mux :=
  (wiring.read_in.find? (fun mp => mp.2 = port)).map (fun mp => mp.1)

/-- `get_qubit_by_control_port`: first qubit wired to the port in `ctrl`. -/
def get_qubit_by_control_port (wiring : WiringInfo) (port : GenPort) : Option Qubit :=
  (wiring.ctrl.find? (fun qp => qp.2 = port)).map (fun qp => qp.1)

/-- The `ctrl_port_map` built in `_create_qubit_port_set_map`. -/
def ctrlPortMap (wiring : WiringInfo) : List (String × GenPort) :=
  wiring.ctrl.foldl (fun m qp => dictInsert qp.1.label qp.2 m) []

/-- The `read_out_port_map` built in `_create_qubit_port_set_map`. -/
def readOutPortMap (wiring : WiringInfo) : List (String × GenPort) :=
  wiring.read_out.foldl
    (fun m mp => mp.1.resonators.foldl (fun m2 r => dictInsert r.qubit mp.2 m2) m) []

/-- The `read_in_port_map` built in `_create_qubit_port_set_map`. -/
def readInPortMap (wiring : WiringInfo) : List (String × CapPort) :=
  wiring.read_in.foldl
    (fun m mp => mp.1.resonators.foldl (fun m2 r => dictInsert r.qubit mp.2 m2) m) []

/-- `ExperimentSystem._create_qubit_port_set_map`: for every control-wired
qubit, look up its readout-out and readout-in ports by the qubit label;
a missing key raises `KeyError` and aborts construction. -/
def _create_qubit_port_set_map (wiring : WiringInfo) :
    Except String (List (String × QubitPortSet)) :=
  mapME (fun kv =>
    match lookupE (readOutPortMap wiring) kv.1 with
    | .error e => .error e
    | .ok rop =>
      match lookupE (readInPortMap wiring) kv.1 with
      | .error e => .error e
      | .ok rip => .ok (kv.1, QubitPortSet.mk kv.2 rop rip)) (ctrlPortMap wiring)

/-- The write-once frequency/gain fields set on a generator port by
`_initialize_gen_port` (absent fields were not written). -/
structure GenPortSetting where
  rfswitch : String
  lo_freq : Option ℤ
  cnco_freq : Option ℤ
  sideband : Option String
  vatt : Option ℤ
  fullscale_current : Option ℤ
  fnco_freqs : List (ℕ × ℤ)
deriving DecidableEq

/-- The fields set on a capture port by `_initialize_cap_port`. -/
structure CapPortSetting where
  rfswitch : String
  lo_freq : Option ℤ
  cnco_freq : Option ℤ
  fnco_freqs : List (ℕ × ℤ)
  ndelays : List (ℕ × ℤ)
deriving DecidableEq

/-- Python tuple indexing `fncos[idx]` on the fnco triple (indices beyond 2
are unreachable: the planner has already rejected other channel counts). -/
def tripleGet (t : ℤ × ℤ × ℤ) : ℕ → ℤ
  | 0 => t.1
  | 1 => t.2.1
  | 2 => t.2.2
  | _ => 0

/-- `ExperimentSystem._initialize_gen_port`: readout ports get the mux's
readout plan with upper sideband on channel 0; control ports get the
control plan with lower sideband on all channels; unwired or other ports
only get their rf switch set. -/
def _initialize_gen_port (qs : QuantumSystem) (wiring : WiringInfo)
    (params : ControlParams) (port : GenPort) : Except String GenPortSetting :=
  if port.type = PortType.READ_OUT then
    match get_mux_by_readout_gen_port wiring port with
    | none => .ok ⟨"pass", none, none, none, none, none, []⟩
    | some mux =>
      match find_readout_lo_nco (mux.resonators.map (fun r => r.frequency))
          8000000000 11000000000 500000000 23437500 1500000000 (-234375000) 234375000 with
      | .error e => .error e
      | .ok lcf =>
        .ok ⟨"pass", some lcf.1, some lcf.2.1, some "U",
          some (params.get_readout_vatt mux.index),
          some (params.get_readout_fsc mux.index),
          [(0, lcf.2.2)]⟩
  else if port.type = PortType.CTRL then
    match get_qubit_by_control_port wiring port with
    | none => .ok ⟨"pass", none, none, none, none, none, []⟩
    | some qubit =>
      match qs.get_qubit? qubit.label with
      | none => .error ("KeyError: " ++ qubit.label)
      | some q =>
        match find_control_lo_nco q.ge_frequency q.ef_frequency qubit.ge_frequency
            ((qs.get_spectator_qubits qubit.label).map (fun sq => sq.ge_frequency))
            port.n_channels none
            8000000000 11000000000 500000000 23437500 2250000000 (-750000000) 750000000 1500000000 with
        | .error e => .error e
        | .ok lcf =>
          .ok ⟨"pass", some lcf.1, some lcf.2.1, some "L",
            some (params.get_control_vatt qubit.label),
            some (params.get_control_fsc qubit.label),
            (List.range port.n_channels).map (fun i => (i, tripleGet lcf.2.2 i))⟩
  else .ok ⟨"pass", none, none, none, none, none, []⟩

/-- `ExperimentSystem._initialize_cap_port`: readout-in ports get the mux's
readout plan on every capture channel plus the capture delay. -/
def _initialize_cap_port (wiring : WiringInfo) (params : ControlParams)
    (port : CapPort) : Except String CapPortSetting :=
  if port.type = PortType.READ_IN then
    match get_mux_by_readout_cap_port wiring port with
    | none => .ok ⟨"open", none, none, [], []⟩
    | some mux =>
      match find_readout_lo_nco (mux.resonators.map (fun r => r.frequency))
          8000000000 11000000000 500000000 23437500 1500000000 (-234375000) 234375000 with
      | .error e => .error e
      | .ok lcf =>
        .ok ⟨"open", some lcf.1, some lcf.2.1,
          (List.range port.n_channels).map (fun i => (i, lcf.2.2)),
          (List.range port.n_channels).map (fun i => (i, params.get_capture_delay mux.index))⟩
  else .ok ⟨"open", none, none, [], []⟩

/-- `ExperimentSystem._initialize_system`: walk every box and port,
collecting the per-port settings (keyed by port id); the first planner
failure aborts construction. -/
def _initialize_system (qs : QuantumSystem) (wiring : WiringInfo)
    (params : ControlParams) (cs : ControlSystem) :
    Except String (List (String × GenPortSetting) × List (String × CapPortSetting)) :=
  foldME (fun acc box =>
    foldME (fun acc2 port =>
      match port with
      | Port.gen g =>
        match _initialize_gen_port qs wiring params g with
        | .error e => .error e
        | .ok st => .ok (acc2.1 ++ [(g.id, st)], acc2.2)
      | Port.cap c =>
        match _initialize_cap_port wiring params c with
        | .error e => .error e
        | .ok st => .ok (acc2.1, acc2.2 ++ [(c.id, st)])) acc box.ports)
    ([], []) cs.boxes

/-- Target kinds (`target.TargetType`, without the unused UNKNOWN). -/
inductive TargetType : Type
  | CTRL_GE : TargetType
  | CTRL_EF : TargetType
  | CTRL_CR : TargetType
  | READ : TargetType
deriving DecidableEq

/-- A logical target: label, resolved frequency (GHz) and kind. -/
structure Target where
  label : String
  frequency : ℚ
  type : TargetType
deriving DecidableEq

/-- Modelled from the spec: `Target.ge_target` (not under src/) — the GE
target's label form is `<Qubit>` per the label grammar. -/
def Target.ge_target (label : String) (frequency : ℚ) : Target :=
  ⟨label, frequency, TargetType.CTRL_GE⟩

/-- Modelled from the spec: `Target.ef_target` — label form `<Qubit>-ef`. -/
def Target.ef_target (label : String) (frequency : ℚ) : Target :=
  ⟨label ++ "-ef", frequency, TargetType.CTRL_EF⟩

/-- Modelled from the spec: `Target.cr_target` — label form `<Qubit>-CR`. -/
def Target.cr_target (label : String) (frequency : ℚ) : Target :=
  ⟨label ++ "-CR", frequency, TargetType.CTRL_CR⟩

/-- Modelled from the spec: `Target.readout_target` — label form `R<Qubit>`,
which is the resonator's own label. -/
def Target.readout_target (label : String) (frequency : ℚ) : Target :=
  ⟨label, frequency, TargetType.READ⟩

/-- Modelled from the spec: the fixed per-type channel-number convention
(`channel_nuber` in the source): GE ↔ 0, EF ↔ 1, CR ↔ 2, READ ↔ 0. -/
def Target.channel_number (t : Target) : ℕ :=
  match t.type with
  | TargetType.CTRL_GE => 0
  | TargetType.CTRL_EF => 1
  | TargetType.CTRL_CR => 2
  | TargetType.READ => 0

/-- Modelled from the spec: a Gen/Cap channel (`control_system.py`, not
under src/) is addressed by its owning port id and its index. -/
structure ChannelRef where
  port_id : String
  number : ℕ
deriving DecidableEq

/-- The four label-keyed target dicts and the two channel-binding maps
accumulated by `_initialize_targets` before sorting. -/
structure TargetMaps where
  ge : List (String × Target)
  ef : List (String × Target)
  cr : List (String × Target)
  readout : List (String × Target)
  gen_channel : List (Target × ChannelRef)
  cap_channel : List (Target × ChannelRef)
deriving DecidableEq

/-- One port's contribution to the target registries, following
`_initialize_targets`: wired 1-channel control ports add a GE target;
wired 3-channel control ports add GE, EF and CR targets on their
conventional channels; wired readout-out ports add one READ target per mux
resonator on channel 0; wired readout-in ports bind each resonator's READ
target to the capture channel at the resonator's position; everything else
is skipped. Registry insertion is Python dict assignment: a duplicate label
silently replaces the earlier value. -/
def processTargetsPort (qs : QuantumSystem) (wiring : WiringInfo)
    (m : TargetMaps) (port : Port) : Except String TargetMaps :=
  match port with
  | Port.gen g =>
    if g.type = PortType.CTRL then
      match get_qubit_by_control_port wiring g with
      | none => .ok m
      | some qubit =>
        if g.n_channels = 1 then
          let t := Target.ge_target qubit.label qubit.ge_frequency
          .ok { m with ge := dictInsert t.label t m.ge,
                       gen_channel := dictInsert t ⟨g.id, 0⟩ m.gen_channel }
        else if g.n_channels = 3 then
          let tge := Target.ge_target qubit.label qubit.ge_frequency
          let tef := Target.ef_target qubit.label qubit.ef_frequency
          let sp := (qs.get_spectator_qubits qubit.label).map (fun sq => sq.ge_frequency)
          match calc_cr_target_frequency qubit.ge_frequency sp (1 / 4) with
          | .error e => .error e
          | .ok crf =>
            let tcr := Target.cr_target qubit.label crf
            .ok { m with
              ge := dictInsert tge.label tge m.ge,
              ef := dictInsert tef.label tef m.ef,
              cr := dictInsert tcr.label tcr m.cr,
              gen_channel :=
                dictInsert tcr ⟨g.id, tcr.channel_number⟩
                  (dictInsert tef ⟨g.id, tef.channel_number⟩
                    (dictInsert tge ⟨g.id, tge.channel_number⟩ m.gen_channel)) }
        else .ok m
    else if g.type = PortType.READ_OUT then
      match get_mux_by_readout_gen_port wiring g with
      | none => .ok m
      | some mux =>
        .ok (mux.resonators.foldl (fun mm r =>
          let t := Target.readout_target r.label r.frequency
          { mm with readout := dictInsert t.label t mm.readout,
                    gen_channel := dictInsert t ⟨g.id, 0⟩ mm.gen_channel }) m)
    else .ok m
  | Port.cap c =>
    if c.type = PortType.READ_IN then
      match get_mux_by_readout_cap_port wiring c with
      | none => .ok m
      | some mux =>
        .ok (mux.resonators.enum.foldl (fun mm ir =>
          let t := Target.readout_target ir.2.label ir.2.frequency
          { mm with cap_channel := dictInsert t ⟨c.id, ir.1⟩ mm.cap_channel }) m)
    else .ok m

/-- `ExperimentSystem._initialize_targets` (accumulation pass): walk every
box and port and fill the target registries. -/
def _initialize_targets (qs : QuantumSystem) (cs : ControlSystem)
    (wiring : WiringInfo) : Except String TargetMaps :=
  foldME (fun m box => foldME (processTargetsPort qs wiring) m box.ports)
    ⟨[], [], [], [], [], []⟩ cs.boxes

/-- Stable insertion by a string key (Python's stable `sorted`). -/
def insertByKey {β : Type} (key : β → String) (x : β) : List β → List β
  | [] => [x]
  | y :: ys => if key y ≤ key x then y :: insertByKey key x ys else x :: y :: ys

/-- `dict(sorted(d.items()))`: sort an association list by key. -/
def sortByKey {β : Type} (key : β → String) (l : List β) : List β :=
  l.foldl (fun acc x => insertByKey key x acc) []

/-- The read-only state of a constructed `ExperimentSystem`: the qubit port
sets, the per-port write-once settings and the sorted target registries. -/
structure ExperimentSystemState where
  qubit_port_set_map : List (String × QubitPortSet)
  gen_port_settings : List (String × GenPortSetting)
  cap_port_settings : List (String × CapPortSetting)
  ge_target_dict : List (String × Target)
  ef_target_dict : List (String × Target)
  cr_target_dict : List (String × Target)
  readout_target_dict : List (String × Target)
  target_dict : List (String × Target)
  target_gen_channel_map : List (Target × ChannelRef)
  target_cap_channel_map : List (Target × ChannelRef)
deriving DecidableEq

/-- `ExperimentSystem.__init__`: build the qubit port set map, initialize
every port, then build the target registries (sorted by label, with
`target_dict` the left-to-right dict union GE | EF | CR | Readout). -/
def ExperimentSystem.build (quantum_system : QuantumSystem)
    (control_system : ControlSystem) (wiring_info : WiringInfo)
    (control_params : ControlParams) : Except String ExperimentSystemState :=
  match _create_qubit_port_set_map wiring_info with
  | .error e => .error e
  | .ok qpsm =>
    match _initialize_system quantum_system wiring_info control_params control_system with
    | .error e => .error e
    | .ok settings =>
      match _initialize_targets quantum_system control_system wiring_info with
      | .error e => .error e
      | .ok m =>
        let ge_sorted := sortByKey (fun kv : String × Target => kv.1) m.ge
        let ef_sorted := sortByKey (fun kv : String × Target => kv.1) m.ef
        let cr_sorted := sortByKey (fun kv : String × Target => kv.1) m.cr
        let ro_sorted := sortByKey (fun kv : String × Target => kv.1) m.readout
        .ok { qubit_port_set_map := qpsm,
              gen_port_settings := settings.1,
              cap_port_settings := settings.2,
              ge_target_dict := ge_sorted,
              ef_target_dict := ef_sorted,
              cr_target_dict := cr_sorted,
              readout_target_dict := ro_sorted,
              target_dict := dictUnion (dictUnion (dictUnion ge_sorted ef_sorted) cr_sorted) ro_sorted,
              target_gen_channel_map :=
                sortByKey (fun kv : Target × ChannelRef => kv.1.label) m.gen_channel,
              target_cap_channel_map :=
                sortByKey (fun kv : Target × ChannelRef => kv.1.label) m.cap_channel }

/-- C8: facade construction is deterministic — two constructions of
`ExperimentSystem` from identical topology, wiring and control-params
inputs produce identical states: the same target registries (labels,
frequencies and order) and the same lo/cnco/fnco/sideband settings on every
port and channel. The construction is a pure function of its four inputs:
it performs no I/O and reads no external state. -/
theorem C8_build_deterministic (qs qs2 : QuantumSystem) (cs cs2 : ControlSystem)
    (w w2 : WiringInfo) (p p2 : ControlParams)
    (hq : qs = qs2) (hc : cs = cs2) (hw : w = w2) (hp : p = p2) :
    ExperimentSystem.build qs cs w p = ExperimentSystem.build qs2 cs2 w2 p2 := by
  rw [hq, hc, hw, hp]

/-- Witness for C8: two runs on a concrete (empty) input agree. -/
theorem C8_build_deterministic_witness :
    ExperimentSystem.build ⟨[], [], []⟩ ⟨[]⟩ ⟨[], [], []⟩ ⟨[], [], [], [], [], [], []⟩
      = ExperimentSystem.build ⟨[], [], []⟩ ⟨[]⟩ ⟨[], [], []⟩ ⟨[], [], [], [], [], [], []⟩ :=
  C8_build_deterministic ⟨[], [], []⟩ ⟨[], [], []⟩ ⟨[]⟩ ⟨[]⟩ ⟨[], [], []⟩ ⟨[], [], []⟩
    ⟨[], [], [], [], [], [], []⟩ ⟨[], [], [], [], [], [], []⟩ rfl rfl rfl rfl

lemma dictLookup_dictInsert_self {α β : Type} [DecidableEq α] (k : α) (v : β)
    (m : List (α × β)) : dictLookup (dictInsert k v m) k = some v := by
  induction m with
  | nil => simp [dictInsert, dictLookup]
  | cons kv rest ih =>
    by_cases h : kv.1 = k
    · simp [dictInsert, dictLookup, h]
    · rw [show dictInsert k v (kv :: rest) = kv :: dictInsert k v rest from by
        simp [dictInsert, h]]
      rw [show dictLookup (kv :: dictInsert k v rest) k
          = if kv.1 = k then some kv.2 else dictLookup (dictInsert k v rest) k from rfl,
        if_neg h]
      exact ih

lemma dictLookup_dictInsert_ne {α β : Type} [DecidableEq α] (k k' : α) (v : β)
    (m : List (α × β)) (h : k' ≠ k) :
    dictLookup (dictInsert k v m) k' = dictLookup m k' := by
  induction m with
  | nil =>
    rw [show dictInsert k v ([] : List (α × β)) = [(k, v)] from rfl]
    rw [show dictLookup [(k, v)] k'
        = if k = k' then some v else dictLookup ([] : List (α × β)) k' from rfl,
      if_neg (Ne.symm h)]
  | cons kv rest ih =>
    by_cases hk : kv.1 = k
    · rw [show dictInsert k v (kv :: rest) = (kv.1, v) :: rest from by
        simp [dictInsert, hk]]
      have hne : kv.1 ≠ k' := by rw [hk]; exact Ne.symm h
      rw [show dictLookup ((kv.1, v) :: rest) k'
          = if kv.1 = k' then some v else dictLookup rest k' from rfl, if_neg hne]
      rw [show dictLookup (kv :: rest) k'
          = if kv.1 = k' then some kv.2 else dictLookup rest k' from rfl, if_neg hne]
    · rw [show dictInsert k v (kv :: rest) = kv :: dictInsert k v rest from by
        simp [dictInsert, hk]]
      rw [show dictLookup (kv :: dictInsert k v rest) k'
          = if kv.1 = k' then some kv.2 else dictLookup (dictInsert k v rest) k' from rfl]
      rw [show dictLookup (kv :: rest) k'
          = if kv.1 = k' then some kv.2 else dictLookup rest k' from rfl]
      by_cases hk' : kv.1 = k'
      · rw [if_pos hk', if_pos hk']
      · rw [if_neg hk', if_neg hk', ih]

lemma dictLookup_mem {α β : Type} [DecidableEq α] {m : List (α × β)} {k : α} {v : β}
    (h : dictLookup m k = some v) : (k, v) ∈ m := by
  induction m with
  | nil => simp [dictLookup] at h
  | cons kv rest ih =>
    rw [show dictLookup (kv :: rest) k
        = if kv.1 = k then some kv.2 else dictLookup rest k from rfl] at h
    by_cases hk : kv.1 = k
    · rw [if_pos hk] at h
      obtain ⟨a, b⟩ := kv
      obtain rfl : a = k := hk
      obtain rfl : b = v := Option.some.inj h
      exact List.mem_cons_self _ _
    · rw [if_neg hk] at h
      exact List.mem_cons_of_mem _ (ih h)

lemma insFold_lookup_some {α β γ : Type} [DecidableEq α] (keyOf : γ → α) (valOf : γ → β)
    (l : List γ) (k : α) :
    ∀ init : List (α × β),
      ((∃ x ∈ l, keyOf x = k) ∨ ∃ v, dictLookup init k = some v) →
      ∃ v, dictLookup (l.foldl (fun m x => dictInsert (keyOf x) (valOf x) m) init) k = some v := by
  induction l with
  | nil =>
    intro init h
    rcases h with ⟨x, hx, _⟩ | hv
    · exact absurd hx (List.not_mem_nil x)
    · exact hv
  | cons x xs ih =>
    intro init h
    rw [List.foldl_cons]
    apply ih
    rcases h with ⟨y, hy, hk⟩ | ⟨v, hv⟩
    · rcases List.mem_cons.mp hy with rfl | hy'
      · exact Or.inr ⟨valOf y, by rw [← hk]; exact dictLookup_dictInsert_self _ _ _⟩
      · exact Or.inl ⟨y, hy', hk⟩
    · right
      by_cases hxk : keyOf x = k
      · exact ⟨valOf x, by rw [← hxk]; exact dictLookup_dictInsert_self _ _ _⟩
      · exact ⟨v, by
          rw [dictLookup_dictInsert_ne _ _ _ _ (fun hc => hxk hc.symm)]
          exact hv⟩

lemma insFold_lookup_none {α β γ : Type} [DecidableEq α] (keyOf : γ → α) (valOf : γ → β)
    (l : List γ) (k : α) (hall : ∀ x ∈ l, keyOf x ≠ k) :
    ∀ init : List (α × β), dictLookup init k = none →
      dictLookup (l.foldl (fun m x => dictInsert (keyOf x) (valOf x) m) init) k = none := by
  induction l with
  | nil => intro init h; exact h
  | cons x xs ih =>
    intro init h
    rw [List.foldl_cons]
    apply ih (fun y hy => hall y (List.mem_cons_of_mem _ hy))
    rw [dictLookup_dictInsert_ne _ _ _ _ (fun hc => hall x (List.mem_cons_self _ _) hc.symm)]
    exact h

lemma readMapFold_none {β : Type} (pairs : List (Mux × β)) (k : String)
    (hall : ∀ mp ∈ pairs, ∀ r ∈ mp.1.resonators, r.qubit ≠ k) :
    ∀ init : List (String × β), dictLookup init k = none →
      dictLookup (pairs.foldl
        (fun m mp => mp.1.resonators.foldl (fun m2 r => dictInsert r.qubit mp.2 m2) m) init) k
      = none := by
  induction pairs with
  | nil => intro init h; exact h
  | cons mp rest ih =>
    intro init h
    rw [List.foldl_cons]
    apply ih (fun y hy => hall y (List.mem_cons_of_mem _ hy))
    exact insFold_lookup_none (fun r : Resonator => r.qubit) (fun _ => mp.2)
      mp.1.resonators k (fun r hr => hall mp (List.mem_cons_self _ _) r hr) init h

lemma mapME_error {α β : Type} (f : α → Except String β) (l : List α) (x : α)
    (hx : x ∈ l) (he : ∃ e, f x = .error e) : ∃ e, mapME f l = .error e := by
  induction l with
  | nil => exact absurd hx (List.not_mem_nil x)
  | cons y ys ih =>
    rcases List.mem_cons.mp hx with rfl | hy'
    · obtain ⟨e, he'⟩ := he
      exact ⟨e, by simp [mapME, he']⟩
    · cases hfy : f y with
      | error e => exact ⟨e, by simp [mapME, hfy]⟩
      | ok v =>
        obtain ⟨e, hme⟩ := ih hy'
        exact ⟨e, by simp [mapME, hfy, hme]⟩

/-- C10: if some qubit appears in the wiring `ctrl` relation but its label
is not covered by both a `read_out` and a `read_in` mux entry, building the
qubit-port-set map fails with a `KeyError` instead of skipping the qubit. -/
theorem C10_missing_readout_wiring_fails (wiring : WiringInfo)
    (h : ∃ qp ∈ wiring.ctrl,
      (¬ ∃ mp ∈ wiring.read_out, ∃ r ∈ mp.1.resonators, r.qubit = qp.1.label) ∨
      (¬ ∃ mp ∈ wiring.read_in, ∃ r ∈ mp.1.resonators, r.qubit = qp.1.label)) :
    ∃ e, _create_qubit_port_set_map wiring = .error e := by
  obtain ⟨qp, hqp, hmiss⟩ := h
  have hp' : ∃ v, dictLookup (ctrlPortMap wiring) qp.1.label = some v := by
    unfold ctrlPortMap
    exact insFold_lookup_some (fun x : Qubit × GenPort => x.1.label) (fun x => x.2)
      wiring.ctrl qp.1.label [] (Or.inl ⟨qp, hqp, rfl⟩)
  obtain ⟨p, hp⟩ := hp'
  have hmem : (qp.1.label, p) ∈ ctrlPortMap wiring := dictLookup_mem hp
  have herr : ∃ e, (fun kv : String × GenPort =>
      (match lookupE (readOutPortMap wiring) kv.1 with
       | Except.error e => Except.error e
       | Except.ok rop =>
         match lookupE (readInPortMap wiring) kv.1 with
         | Except.error e => Except.error e
         | Except.ok rip => Except.ok (kv.1, QubitPortSet.mk kv.2 rop rip) :
       Except String (String × QubitPortSet))) (qp.1.label, p)
      = Except.error e := by
    rcases hmiss with hro | hri
    · have hnone : dictLookup (readOutPortMap wiring) qp.1.label = none := by
        unfold readOutPortMap
        apply readMapFold_none
        · push_neg at hro
          exact hro
        · rfl
      exact ⟨"KeyError: " ++ qp.1.label, by simp only [lookupE, hnone]⟩
    · cases hro2 : lookupE (readOutPortMap wiring) qp.1.label with
      | error e => exact ⟨e, by simp only [hro2]⟩
      | ok rop =>
        have hnone : dictLookup (readInPortMap wiring) qp.1.label = none := by
          unfold readInPortMap
          apply readMapFold_none
          · push_neg at hri
            exact hri
          · rfl
        refine ⟨"KeyError: " ++ qp.1.label, ?_⟩
        simp only [lookupE] at hro2
        simp only [lookupE, hnone, hro2]
  unfold _create_qubit_port_set_map
  exact mapME_error _ _ _ hmem herr

/-- C10 witness input: one control-wired qubit, no readout wiring at all. -/
def c10Qubit : Qubit := ⟨"Q00", 8, 7⟩

def c10Port : GenPort := ⟨"CTRL0", 1, PortType.CTRL⟩

def c10Wiring : WiringInfo := ⟨[(c10Qubit, c10Port)], [], []⟩

/-- Witness for C10: the theorem applied to the one-qubit wiring with no
readout entries. -/
theorem C10_missing_readout_wiring_fails_witness :
    ∃ e, _create_qubit_port_set_map c10Wiring = .error e :=
  C10_missing_readout_wiring_fails c10Wiring
    ⟨(c10Qubit, c10Port), by simp [c10Wiring], Or.inl (by simp [c10Wiring])⟩

/-- C7 input: two muxes on two readout ports whose resonators carry the
same label `RQ00` (at different frequencies, 10 and 11 GHz). -/
def c7Res1 : Resonator := ⟨"RQ00", "Q00", 10⟩

def c7Res2 : Resonator := ⟨"RQ00", "Q00", 11⟩

def c7Mux0 : Mux := ⟨0, [c7Res1]⟩

def c7Mux1 : Mux := ⟨1, [c7Res2]⟩

def c7PortA : GenPort := ⟨"A", 1, PortType.READ_OUT⟩

def c7PortB : GenPort := ⟨"B", 1, PortType.READ_OUT⟩

def c7Box : Box := ⟨"BOX0", [Port.gen c7PortA, Port.gen c7PortB]⟩

def c7Qs : QuantumSystem := ⟨[], [c7Mux0, c7Mux1], []⟩

def c7Cs : ControlSystem := ⟨[c7Box]⟩

def c7Wiring : WiringInfo := ⟨[], [(c7Mux0, c7PortA), (c7Mux1, c7PortB)], []⟩

def c7Params : ControlParams := ⟨[], [], [], [], [], [], []⟩

/-- C7 counterexample: construction does NOT fail when two targets carry the
same label. The two resonators produce READ targets with the identical
label `RQ00`, yet the facade builds successfully and the readout registry
holds a single entry — one target silently replaced the other. -/
theorem C7_counterexample :
    (Target.readout_target c7Res1.label c7Res1.frequency).label
      = (Target.readout_target c7Res2.label c7Res2.frequency).label ∧
    (ExperimentSystem.build c7Qs c7Cs c7Wiring c7Params).map
      (fun st => st.readout_target_dict.length) = .ok 1 := by
  obtain ⟨rA, hrA, -, -, -, -, -⟩ :=
    firstArgmin_spec (readoutDiff 1500000000 (readoutTarget [(10 : ℚ)]))
      (readoutPairs 8000000000 11000000000 500000000 (-234375000) 234375000 23437500)
      (by decide)
  obtain ⟨rB, hrB, -, -, -, -, -⟩ :=
    firstArgmin_spec (readoutDiff 1500000000 (readoutTarget [(11 : ℚ)]))
      (readoutPairs 8000000000 11000000000 500000000 (-234375000) 234375000 23437500)
      (by decide)
  have hfA := find_readout_eq_ok [(10 : ℚ)]
    8000000000 11000000000 500000000 23437500 1500000000 (-234375000) 234375000
    (List.cons_ne_nil _ _) rA hrA
  have hfB := find_readout_eq_ok [(11 : ℚ)]
    8000000000 11000000000 500000000 23437500 1500000000 (-234375000) 234375000
    (List.cons_ne_nil _ _) rB hrB
  have hgA : _initialize_gen_port c7Qs c7Wiring c7Params c7PortA
      = .ok ⟨"pass", some rA.1, some 1500000000, some "U", some 2048, some 40527, [(0, rA.2)]⟩ := by
    have hfA' : find_readout_lo_nco (c7Mux0.resonators.map (fun r => r.frequency))
        8000000000 11000000000 500000000 23437500 1500000000 (-234375000) 234375000
        = .ok (rA.1, 1500000000, rA.2) := hfA
    unfold _initialize_gen_port
    rw [if_pos (show c7PortA.type = PortType.READ_OUT from rfl),
      show get_mux_by_readout_gen_port c7Wiring c7PortA = some c7Mux0 from rfl]
    simp only [hfA']
    rfl
  have hgB : _initialize_gen_port c7Qs c7Wiring c7Params c7PortB
      = .ok ⟨"pass", some rB.1, some 1500000000, some "U", some 2048, some 40527, [(0, rB.2)]⟩ := by
    have hfB' : find_readout_lo_nco (c7Mux1.resonators.map (fun r => r.frequency))
        8000000000 11000000000 500000000 23437500 1500000000 (-234375000) 234375000
        = .ok (rB.1, 1500000000, rB.2) := hfB
    unfold _initialize_gen_port
    rw [if_pos (show c7PortB.type = PortType.READ_OUT from rfl),
      show get_mux_by_readout_gen_port c7Wiring c7PortB = some c7Mux1 from rfl]
    simp only [hfB']
    rfl
  have hsys : _initialize_system c7Qs c7Wiring c7Params c7Cs
      = .ok ([("A", ⟨"pass", some rA.1, some 1500000000, some "U", some 2048, some 40527, [(0, rA.2)]⟩),
              ("B", ⟨"pass", some rB.1, some 1500000000, some "U", some 2048, some 40527, [(0, rB.2)]⟩)],
             []) := by
    unfold _initialize_system
    simp only [c7Cs, c7Box, foldME, hgA, hgB]
    rfl
  have htm : _initialize_targets c7Qs c7Cs c7Wiring
      = .ok ⟨[], [], [], [("RQ00", ⟨"RQ00", 11, TargetType.READ⟩)],
             [(⟨"RQ00", 10, TargetType.READ⟩, ⟨"A", 0⟩),
              (⟨"RQ00", 11, TargetType.READ⟩, ⟨"B", 0⟩)], []⟩ := rfl
  refine ⟨rfl, ?_⟩
  unfold ExperimentSystem.build
  simp only [show _create_qubit_port_set_map c7Wiring
      = Except.ok ([] : List (String × QubitPortSet)) from rfl, hsys, htm]
  rfl

/-- C7 amended: duplicate target labels are silently replaced, last writer
wins. With two resonators both labelled `RQ00` (frequencies 10 and 11 GHz)
wired to ports A and B in that order, the build succeeds and the readout
registry holds exactly the later target (frequency 11). -/
theorem C7_duplicate_label_silent_replace :
    (ExperimentSystem.build c7Qs c7Cs c7Wiring c7Params).map
      (fun st => st.readout_target_dict)
      = .ok [("RQ00", ⟨"RQ00", 11, TargetType.READ⟩)] := by
  obtain ⟨rA, hrA, -, -, -, -, -⟩ :=
    firstArgmin_spec (readoutDiff 1500000000 (readoutTarget [(10 : ℚ)]))
      (readoutPairs 8000000000 11000000000 500000000 (-234375000) 234375000 23437500)
      (by decide)
  obtain ⟨rB, hrB, -, -, -, -, -⟩ :=
    firstArgmin_spec (readoutDiff 1500000000 (readoutTarget [(11 : ℚ)]))
      (readoutPairs 8000000000 11000000000 500000000 (-234375000) 234375000 23437500)
      (by decide)
  have hfA := find_readout_eq_ok [(10 : ℚ)]
    8000000000 11000000000 500000000 23437500 1500000000 (-234375000) 234375000
    (List.cons_ne_nil _ _) rA hrA
  have hfB := find_readout_eq_ok [(11 : ℚ)]
    8000000000 11000000000 500000000 23437500 1500000000 (-234375000) 234375000
    (List.cons_ne_nil _ _) rB hrB
  have hgA : _initialize_gen_port c7Qs c7Wiring c7Params c7PortA
      = .ok ⟨"pass", some rA.1, some 1500000000, some "U", some 2048, some 40527, [(0, rA.2)]⟩ := by
    have hfA' : find_readout_lo_nco (c7Mux0.resonators.map (fun r => r.frequency))
        8000000000 11000000000 500000000 23437500 1500000000 (-234375000) 234375000
        = .ok (rA.1, 1500000000, rA.2) := hfA
    unfold _initialize_gen_port
    rw [if_pos (show c7PortA.type = PortType.READ_OUT from rfl),
      show get_mux_by_readout_gen_port c7Wiring c7PortA = some c7Mux0 from rfl]
    simp only [hfA']
    rfl
  have hgB : _initialize_gen_port c7Qs c7Wiring c7Params c7PortB
      = .ok ⟨"pass", some rB.1, some 1500000000, some "U", some 2048, some 40527, [(0, rB.2)]⟩ := by
    have hfB' : find_readout_lo_nco (c7Mux1.resonators.map (fun r => r.frequency))
        8000000000 11000000000 500000000 23437500 1500000000 (-234375000) 234375000
        = .ok (rB.1, 1500000000, rB.2) := hfB
    unfold _initialize_gen_port
    rw [if_pos (show c7PortB.type = PortType.READ_OUT from rfl),
      show get_mux_by_readout_gen_port c7Wiring c7PortB = some c7Mux1 from rfl]
    simp only [hfB']
    rfl
  have hsys : _initialize_system c7Qs c7Wiring c7Params c7Cs
      = .ok ([("A", ⟨"pass", some rA.1, some 1500000000, some "U", some 2048, some 40527, [(0, rA.2)]⟩),
              ("B", ⟨"pass", some rB.1, some 1500000000, some "U", some 2048, some 40527, [(0, rB.2)]⟩)],
             []) := by
    unfold _initialize_system
    simp only [c7Cs, c7Box, foldME, hgA, hgB]
    rfl
  have htm : _initialize_targets c7Qs c7Cs c7Wiring
      = .ok ⟨[], [], [], [("RQ00", ⟨"RQ00", 11, TargetType.READ⟩)],
             [(⟨"RQ00", 10, TargetType.READ⟩, ⟨"A", 0⟩),
              (⟨"RQ00", 11, TargetType.READ⟩, ⟨"B", 0⟩)], []⟩ := rfl
  unfold ExperimentSystem.build
  simp only [show _create_qubit_port_set_map c7Wiring
      = Except.ok ([] : List (String × QubitPortSet)) from rfl, hsys, htm]
  rfl
